import Mathlib

/-!
Verification of the grading / ranking / log-demultiplexing core of
python-mtga-helper against its natural-language specification.

The Python sources are shallowly embedded: dictionaries with optional keys
become structures with `Option` fields, Python floats become `ℚ` (the code
performs only field arithmetic; the two spots where an irrational value or a
float NaN would arise are modelled explicitly and documented at the
definition), raising code returns `Except PyErr`, and Python truthiness is
modelled by `pyTruthy` (None and 0.0 are falsy, everything else truthy).

Embedded sources:
  * src/mtga_helper/grading.py      (Grade, GRADE_THRESHOLDS, score_to_grade,
                                     get_normal_distribution)
  * src/mtga_helper/__main__.py     (split_pool_by_color_pair, get_top_scores,
                                     has_card_type, get_graded_rankings)
  * src/follow_log.py               (COLOR_PAIRS, are_card_colors_in_pair,
                                     land_string_to_colors)
  * src/mtga_helper/mtga_log.py     (follow_player_log line dispatch loop)
-/

/-- Python exceptions that the embedded code can raise. The repository defines
no exception classes of its own; these are the built-ins its code paths can
produce. -/
inductive PyErr where
  | indexError
  | keyError
  | jsonDecodeError
  | typeError
deriving DecidableEq, Repr

/-- Python truthiness of an optional float: `None` and `0.0` are falsy, every
other value is truthy. This models `if card[key]:` style guards. -/
def pyTruthy : Option ℚ → Bool
  | none => false
  | some x => decide (x ≠ 0)

/-- The thirteen grade symbols of `class Grade(StrEnum)` in
src/mtga_helper/grading.py, in declaration order (best first). -/
inductive Grade where
  | A_PLUS | A | A_MINUS
  | B_PLUS | B | B_MINUS
  | C_PLUS | C | C_MINUS
  | D_PLUS | D | D_MINUS
  | F
deriving DecidableEq, Repr

/-- Position of a grade in the declaration order: 0 is the best grade (A+),
12 the worst (F). Smaller means equal-or-better. -/
def Grade.toNat : Grade → Nat
  | .A_PLUS => 0 | .A => 1 | .A_MINUS => 2
  | .B_PLUS => 3 | .B => 4 | .B_MINUS => 5
  | .C_PLUS => 6 | .C => 7 | .C_MINUS => 8
  | .D_PLUS => 9 | .D => 10 | .D_MINUS => 11
  | .F => 12

/-- Embeds `GRADE_THRESHOLDS` of src/mtga_helper/grading.py: insertion-ordered dict
from grade to inclusive lower-bound percentile, best grade first. -/
def GRADE_THRESHOLDS : List (Grade × ℚ) :=
  [(.A_PLUS, 99), (.A, 95), (.A_MINUS, 90),
   (.B_PLUS, 85), (.B, 76), (.B_MINUS, 68),
   (.C_PLUS, 57), (.C, 45), (.C_MINUS, 36),
   (.D_PLUS, 27), (.D, 17), (.D_MINUS, 5),
   (.F, 0)]

/-- Embeds `score_to_grade` of src/mtga_helper/grading.py (identical to
`get_grade_for_score` in src/mtga_helper/__main__.py): scan the thresholds in
dict order and return the first grade whose threshold is ≤ score; fall back to
`Grade.F` after the loop. The Python function reads the module-level
`GRADE_THRESHOLDS`; the embedding takes the scale as a parameter so that the
spec's quantification over scales can be stated. -/
def score_to_grade : List (Grade × ℚ) → ℚ → Grade
  | [], _ => Grade.F
  | (g, t) :: rest, score => if t ≤ score then g else score_to_grade rest score

/-- A scale lists its grades strictly best-to-worst (declaration order). -/
def gradesStrictAsc : List (Grade × ℚ) → Bool
  | [] => true
  | [_] => true
  | a :: b :: rest => decide (a.1.toNat < b.1.toNat) && gradesStrictAsc (b :: rest)

/-- Thresholds strictly descending along the scale. -/
def thresholdsStrictDesc : List (Grade × ℚ) → Bool
  | [] => true
  | [_] => true
  | a :: b :: rest => decide (b.2 < a.2) && thresholdsStrictDesc (b :: rest)

/-- The lowest (last) threshold of the scale is 0. -/
def lastThresholdZero (scale : List (Grade × ℚ)) : Bool :=
  match scale.getLast? with
  | some gt => decide (gt.2 = 0)
  | none => false

theorem Grade.toNat_le_twelve (g : Grade) : g.toNat ≤ 12 := by
  cases g <;> decide

theorem gradesStrictAsc_tail {a : Grade × ℚ} {l : List (Grade × ℚ)}
    (h : gradesStrictAsc (a :: l) = true) : gradesStrictAsc l = true := by
  cases l with
  | nil => rfl
  | cons b rest =>
    simp only [gradesStrictAsc, Bool.and_eq_true] at h
    exact h.2

theorem gradesStrictAsc_head_lt {a : Grade × ℚ} {l : List (Grade × ℚ)}
    (h : gradesStrictAsc (a :: l) = true) :
    ∀ gt ∈ l, a.1.toNat < gt.1.toNat := by
  induction l generalizing a with
  | nil => intro gt hgt; cases hgt
  | cons b rest ih =>
    intro gt hgt
    simp only [gradesStrictAsc, Bool.and_eq_true, decide_eq_true_eq] at h
    rcases List.mem_cons.mp hgt with rfl | hmem
    · exact h.1
    · exact Nat.lt_trans h.1 (ih h.2 gt hmem)

theorem score_to_grade_mem_or_F (scale : List (Grade × ℚ)) (s : ℚ) :
    score_to_grade scale s = Grade.F ∨
      ∃ gt ∈ scale, score_to_grade scale s = gt.1 := by
  induction scale with
  | nil => exact Or.inl rfl
  | cons a rest ih =>
    by_cases h : a.2 ≤ s
    · right
      exact ⟨a, List.mem_cons_self a rest, by simp [score_to_grade, h]⟩
    · rcases ih with hF | ⟨gt, hmem, heq⟩
      · left; simpa [score_to_grade, h] using hF
      · right
        exact ⟨gt, List.mem_cons_of_mem a hmem, by simpa [score_to_grade, h] using heq⟩

theorem score_to_grade_total (scale : List (Grade × ℚ)) (s : ℚ)
    (hzero : lastThresholdZero scale = true) (hs : 0 ≤ s) :
    ∃ gt ∈ scale, score_to_grade scale s = gt.1 ∧ gt.2 ≤ s := by
  induction scale with
  | nil => simp [lastThresholdZero] at hzero
  | cons a rest ih =>
    by_cases h : a.2 ≤ s
    · exact ⟨a, List.mem_cons_self a rest, by simp [score_to_grade, h], h⟩
    · cases hrest : rest with
      | nil =>
        subst hrest
        simp only [lastThresholdZero, List.getLast?_singleton, decide_eq_true_eq] at hzero
        exact absurd (hzero ▸ hs) h
      | cons b rest' =>
        subst hrest
        have hzero' : lastThresholdZero (b :: rest') = true := by
          simpa [lastThresholdZero, List.getLast?_cons_cons] using hzero
        rcases ih hzero' with ⟨gt, hmem, heq, hle⟩
        exact ⟨gt, List.mem_cons_of_mem a hmem, by simpa [score_to_grade, h] using heq, hle⟩

theorem score_to_grade_monotone (scale : List (Grade × ℚ)) (s1 s2 : ℚ)
    (hasc : gradesStrictAsc scale = true) (h12 : s2 ≤ s1) :
    (score_to_grade scale s1).toNat ≤ (score_to_grade scale s2).toNat := by
  induction scale with
  | nil => exact Nat.le_refl _
  | cons a rest ih =>
    by_cases h2 : a.2 ≤ s2
    · have h1 : a.2 ≤ s1 := le_trans h2 h12
      simp [score_to_grade, h1, h2]
    · by_cases h1 : a.2 ≤ s1
      · simp only [score_to_grade, if_pos h1, if_neg h2]
        rcases score_to_grade_mem_or_F rest s2 with hF | ⟨gt, hmem, heq⟩
        · rw [hF]; exact Grade.toNat_le_twelve a.1
        · rw [heq]
          exact Nat.le_of_lt (gradesStrictAsc_head_lt hasc gt hmem)
      · simp only [score_to_grade, if_neg h1, if_neg h2]
        exact ih (gradesStrictAsc_tail hasc)

/-- Substring search on char lists: `subList p l` is true iff `p` occurs
contiguously inside `l`. This models Python's `pat in s` on strings. -/
def subList (p : List Char) : List Char → Bool
  | [] => p.isEmpty
  | c :: rest => p.isPrefixOf (c :: rest) || subList p rest

/-- Python's `pat in line` substring test. -/
def strIn (pat line : String) : Bool := subList pat.data line.data

theorem isPrefixOf_append (p t : List Char) : p.isPrefixOf (p ++ t) = true := by
  induction p with
  | nil => simp [List.isPrefixOf]
  | cons c cs ih => simp [List.isPrefixOf, ih]

theorem subList_subset {p l : List Char} (h : subList p l = true) :
    ∀ c ∈ p, c ∈ l := by
  induction l with
  | nil =>
    intro c hc
    simp only [subList, List.isEmpty_iff] at h
    subst h; cases hc
  | cons a rest ih =>
    intro c hc
    simp only [subList, Bool.or_eq_true] at h
    rcases h with hpre | hsub
    · have : p <+: a :: rest := List.isPrefixOf_iff_prefix.mp hpre
      exact this.subset hc
    · exact List.mem_cons_of_mem a (ih hsub c hc)

/-- One record of the 17lands statistics feed, as consumed by the code. A
Python dict with optional keys becomes a structure with `Option` fields;
`ever_drawn_score` / `ever_drawn_grade` are absent (`none`) until enrichment
writes them. -/
structure Record where
  mtga_id : Nat
  name : String
  rarity : String
  color : String
  types : List String
  ever_drawn_win_rate : Option ℚ
  ever_drawn_score : Option ℚ := none
  ever_drawn_grade : Option Grade := none
deriving DecidableEq, Repr

/-- Modelled from the spec: `normal_distribution.py` is not under src/. The
spec (§3) describes the NormalModel as the fitted mean and sample standard
deviation. The standard deviation of a rational sample is irrational in
general, so the field `sqStd` stores its square (the ddof=1 variance), which
carries the same information and the same definedness; `none` models the float
NaN that numpy produces on degenerate samples. -/
structure NormalDistribution where
  mean : Option ℚ
  sqStd : Option ℚ
deriving DecidableEq, Repr

/-- Modelled from the spec: `NormalDistribution.cdf` (normal_distribution.py,
absent from src/) is 100 × the standard normal CDF at (x − mean)/std — a
transcendental real function. No claim in this development depends on its
numeric value, only on the fact that enrichment stores *some* number, so it is
represented by an unspecified computable rational stand-in. -/
def NormalDistribution.cdf (nd : NormalDistribution) (x : ℚ) : ℚ :=
  match nd.mean, nd.sqStd with
  | some m, some v => (x - m) / (v + 1)
  | _, _ => 0

/-- The `win_rates` / `scores` collection loop shared by
`get_normal_distribution` (src/mtga_helper/grading.py) and `get_top_scores`
(src/mtga_helper/__main__.py): keep the values of `key` that are truthy
(non-None and non-zero), in order. -/
def truthy_values (records : List Record) (key : Record → Option ℚ) : List ℚ :=
  records.foldr (fun c acc => if pyTruthy (key c) then (key c).getD 0 :: acc else acc) []

/-- Embeds `np.mean` on a Python list: NaN (here `none`) on the empty list, the
arithmetic mean otherwise. -/
def npMean (l : List ℚ) : Option ℚ :=
  if l.isEmpty then none else some (l.sum / l.length)

/-- The square of `np.std(l, ddof=1)`: NaN (here `none`) when fewer than 2
values (0/0 for n = 1, NaN mean for n = 0), the n−1-denominator sample
variance otherwise. -/
def npVarDdof1 (l : List ℚ) : Option ℚ :=
  if l.length < 2 then none
  else some (((l.map (fun x => (x - l.sum / l.length) ^ 2)).sum) / (l.length - 1))

/-- Embeds `get_normal_distribution(rankings, key)` of src/mtga_helper/grading.py:
collect the truthy values of `key`, then build the model from `np.mean` and
`np.std(ddof=1)`. The Python code raises nothing here: numpy returns NaN on
degenerate input (with a warning), so the embedding is a total function. -/
def get_normal_distribution (records : List Record) (key : Record → Option ℚ) :
    NormalDistribution :=
  { mean := npMean (truthy_values records key)
    sqStd := npVarDdof1 (truthy_values records key) }

/-- Whitespace characters recognized by Python's `str.split()`. -/
def isWs (c : Char) : Bool := c = ' ' || c = '\t' || c = '\n' || c = '\r'

/-- Python `str.split()` (no separator): split on runs of whitespace,
dropping empty chunks. Structural recursion on the char list. -/
def wordsAux : List Char → List Char → List String
  | [], acc => if acc.isEmpty then [] else [String.mk acc.reverse]
  | c :: rest, acc =>
    if isWs c then
      if acc.isEmpty then wordsAux rest []
      else String.mk acc.reverse :: wordsAux rest []
    else wordsAux rest (c :: acc)

/-- The chunks of `land_type_str.split()`. -/
def pyWords (s : String) : List String := wordsAux s.data []

/-- Embeds `land_string_to_colors` of src/follow_log.py: split one type string on
whitespace and collect the color letters of the basic-land words found.
Python joins a `set` in unspecified iteration order; the embedding uses the
fixed WUBRG order (every consumer of the result is order-insensitive). -/
def land_string_to_colors (land_type_str : String) : String :=
  let chunks := pyWords land_type_str
  String.mk
    ((if chunks.contains "Plains" then ['W'] else []) ++
     (if chunks.contains "Island" then ['U'] else []) ++
     (if chunks.contains "Swamp" then ['B'] else []) ++
     (if chunks.contains "Mountain" then ['R'] else []) ++
     (if chunks.contains "Forest" then ['G'] else []))

/-- Embeds `has_card_type` of src/mtga_helper/__main__.py: true iff some entry of the
record's type list contains `type_name` as a substring. -/
def has_card_type (ranking : Record) (type_name : String) : Bool :=
  ranking.types.any (fun card_type => strIn type_name card_type)

/-- First statements of the enrichment loop body
(src/mtga_helper/__main__.py, lines 257-258): set `ever_drawn_score` and
`ever_drawn_grade` to None. -/
def resetScores (r : Record) : Record :=
  { r with ever_drawn_score := none, ever_drawn_grade := none }

/-- Color backfill of the enrichment loop (lines 259-261): when the color is
empty (falsy) and some type contains "Land", iterate over all type entries
and overwrite `color` with `land_string_to_colors(card_type)` each time —
so the value from the last type entry wins. -/
def backfillColor (r : Record) : Record :=
  if r.color = "" ∧ has_card_type r "Land" = true then
    { r with color := r.types.foldl (fun _ card_type => land_string_to_colors card_type) r.color }
  else r

/-- Score/grade assignment of the enrichment loop (lines 263-265): when the
raw win rate is truthy, store `cdf(win_rate) * 100` and its grade. -/
def applyScore (nd : NormalDistribution) (r : Record) : Record :=
  if pyTruthy r.ever_drawn_win_rate then
    { r with
      ever_drawn_score := some (nd.cdf ((r.ever_drawn_win_rate).getD 0) * 100)
      ever_drawn_grade := some (score_to_grade GRADE_THRESHOLDS (nd.cdf ((r.ever_drawn_win_rate).getD 0) * 100)) }
  else r

/-- The whole per-record body of the enrichment loop in `get_graded_rankings`
(src/mtga_helper/__main__.py, lines 256-265). -/
def enrichRecord (nd : NormalDistribution) (r : Record) : Record :=
  applyScore nd (backfillColor (resetScores r))

/-- Insert an id ↦ record binding with Python-dict semantics (overwrite in
place if present, append otherwise). -/
def dictSet (m : List (Nat × Record)) (k : Nat) (v : Record) : List (Nat × Record) :=
  match m with
  | [] => [(k, v)]
  | (k', v') :: rest => if k' = k then (k, v) :: rest else (k', v') :: dictSet rest k v

/-- The pure core of `get_graded_rankings` (src/mtga_helper/__main__.py,
lines 240-267) after the 17lands fetch, which is I/O and cut at the boundary.
The Python code stores the fetched record dicts in `rankings_by_arena_id` and
then mutates those dicts in place; under the spec's data-quality assumption of
unique identifiers every input record is reachable from the dict, so the
post-call state of the input list is `records.map (enrichRecord nd)`. The
function returns that post-call state together with the id-keyed mapping whose
values alias it. -/
def get_graded_rankings (records : List Record) :
    List Record × List (Nat × Record) :=
  let nd := get_normal_distribution records (fun r => r.ever_drawn_win_rate)
  let enriched := records.map (enrichRecord nd)
  (enriched, enriched.foldl (fun m r => dictSet m r.mtga_id r) [])

/-- Descending insertion used to model Python's `sorted(scores, reverse=True)`.
Only the multiset of kept elements matters to the claims. -/
def insertDesc (x : ℚ) : List ℚ → List ℚ
  | [] => [x]
  | y :: ys => if y ≤ x then x :: y :: ys else y :: insertDesc x ys

/-- Embeds `sorted(scores, reverse=True)`. -/
def sortDesc (l : List ℚ) : List ℚ := l.foldr insertDesc []

/-- Arithmetic mean of a nonempty list (`np.mean` on a nonempty slice). -/
def listMean (l : List ℚ) : ℚ := l.sum / l.length

/-- Last element of `h :: t`. -/
def lastOf (h : ℚ) : List ℚ → ℚ
  | [] => h
  | y :: ys => lastOf y ys

/-- Embeds `get_top_scores(rankings, score_key, card_count)` of
src/mtga_helper/__main__.py: collect truthy values of the score key, sort
descending, slice the first `card_count`, and return (mean, best, worst).
`top_scores[-1]` on an empty slice raises IndexError, modelled as
`Except.error`. `card_count` is a `Nat`; the call sites pass 40 − land_count. -/
def get_top_scores (rankings : List Record) (key : Record → Option ℚ)
    (card_count : Nat) : Except PyErr (ℚ × ℚ × ℚ) :=
  match (sortDesc (truthy_values rankings key)).take card_count with
  | [] => .error .indexError
  | h :: t => .ok (listMean (h :: t), h, lastOf h t)

/-- Embeds `COLOR_PAIRS` of src/follow_log.py: the ten two-color pair keys in dict
insertion order, with their guild names. -/
def COLOR_PAIRS : List (String × String) :=
  [("WU", "Azorius"), ("UB", "Dimir"), ("BR", "Rakdos"), ("RG", "Gruul"),
   ("GW", "Selesnya"), ("WB", "Orzhov"), ("UR", "Izzet"), ("BG", "Golgari"),
   ("RW", "Boros"), ("GU", "Simic")]

/-- Embeds `are_card_colors_in_pair` of src/follow_log.py: every character of the
card's color string must occur in the pair string; vacuously true for the
empty color string. -/
def are_card_colors_in_pair (card_colors color_pair : String) : Bool :=
  card_colors.data.all (fun card_color => decide (card_color ∈ color_pair.data))

/-- Python dict lookup `set_rankings_by_arena_id[arena_id]`. -/
def lookupRec (byId : List (Nat × Record)) (arena_id : Nat) : Option Record :=
  (byId.find? (fun p => p.1 = arena_id)).map (fun p => p.2)

/-- The inner loop of `split_pool_by_color_pair`
(src/mtga_helper/__main__.py, lines 79-92) for one color pair: walk the pool,
raise KeyError on an unknown id, skip lands unless `include_lands`, and keep
the rankings whose colors fit the pair, in pool order. -/
def bucketFor (byId : List (Nat × Record)) (pool : List Nat)
    (include_lands : Bool) (color_pair : String) : Except PyErr (List Record) :=
  match pool with
  | [] => .ok []
  | arena_id :: rest =>
    match lookupRec byId arena_id with
    | none => .error .keyError
    | some ranking =>
      if !include_lands && has_card_type ranking "Land" then
        bucketFor byId rest include_lands color_pair
      else if are_card_colors_in_pair ranking.color color_pair then
        (bucketFor byId rest include_lands color_pair).map (fun l => ranking :: l)
      else
        bucketFor byId rest include_lands color_pair

/-- Embeds `split_pool_by_color_pair` of src/mtga_helper/__main__.py: one bucket per
entry of `COLOR_PAIRS`, in dict order. -/
def split_pool_by_color_pair (byId : List (Nat × Record)) (pool : List Nat)
    (include_lands : Bool := false) :
    Except PyErr (List (String × List Record)) :=
  COLOR_PAIRS.mapM (fun pv =>
    (bucketFor byId pool include_lands pv.1).map (fun l => (pv.1, l)))

theorem resetScores_wr (r : Record) :
    (resetScores r).ever_drawn_win_rate = r.ever_drawn_win_rate := rfl

theorem resetScores_score (r : Record) :
    (resetScores r).ever_drawn_score = none := rfl

theorem resetScores_grade (r : Record) :
    (resetScores r).ever_drawn_grade = none := rfl

theorem backfillColor_wr (r : Record) :
    (backfillColor r).ever_drawn_win_rate = r.ever_drawn_win_rate := by
  unfold backfillColor; split <;> rfl

theorem backfillColor_score (r : Record) :
    (backfillColor r).ever_drawn_score = r.ever_drawn_score := by
  unfold backfillColor; split <;> rfl

theorem backfillColor_grade (r : Record) :
    (backfillColor r).ever_drawn_grade = r.ever_drawn_grade := by
  unfold backfillColor; split <;> rfl

theorem applyScore_color (nd : NormalDistribution) (r : Record) :
    (applyScore nd r).color = r.color := by
  unfold applyScore; split <;> rfl

/-- The three enrichment steps never touch identifier, name, rarity, types or
the raw win rate. -/
def frameFields (r : Record) : Nat × String × String × List String × Option ℚ :=
  (r.mtga_id, r.name, r.rarity, r.types, r.ever_drawn_win_rate)

theorem frameFields_enrich (nd : NormalDistribution) (r : Record) :
    frameFields (enrichRecord nd r) = frameFields r := by
  unfold enrichRecord applyScore backfillColor resetScores frameFields
  split <;> split <;> rfl

theorem truthy_values_append (l1 l2 : List Record) (key : Record → Option ℚ) :
    truthy_values (l1 ++ l2) key
      = truthy_values l1 key ++ truthy_values l2 key := by
  induction l1 with
  | nil => rfl
  | cons a t ih =>
    simp only [truthy_values, List.foldr_cons, List.cons_append] at *
    by_cases h : pyTruthy (key a) = true
    · simp [h, ih]
    · simp only [Bool.not_eq_true] at h
      simp [h, ih]

theorem truthy_values_cons_falsy (r : Record) (l : List Record)
    (key : Record → Option ℚ) (h : pyTruthy (key r) = false) :
    truthy_values (r :: l) key = truthy_values l key := by
  simp [truthy_values, h]

theorem insertDesc_length (x : ℚ) (l : List ℚ) :
    (insertDesc x l).length = l.length + 1 := by
  induction l with
  | nil => rfl
  | cons y ys ih => by_cases h : y ≤ x <;> simp [insertDesc, h, ih]

theorem sortDesc_length (l : List ℚ) : (sortDesc l).length = l.length := by
  induction l with
  | nil => rfl
  | cons x xs ih =>
    show (insertDesc x (sortDesc xs)).length = xs.length + 1
    rw [insertDesc_length, ih]

theorem take_eq_self_of_le {α : Type} (l : List α) (n : Nat)
    (h : l.length ≤ n) : l.take n = l := by
  induction l generalizing n with
  | nil => simp
  | cons a t ih =>
    cases n with
    | zero => cases h
    | succ m =>
      simp only [List.take_succ_cons]
      rw [ih m (Nat.le_of_succ_le_succ h)]

/-- Sample records for concrete evaluations. -/
def recA : Record :=
  { mtga_id := 1, name := "A", rarity := "common", color := "W",
    types := ["Creature"], ever_drawn_win_rate := some 2 }

def recB : Record :=
  { mtga_id := 2, name := "B", rarity := "uncommon", color := "U",
    types := ["Instant"], ever_drawn_win_rate := some 6 }

def recNoScore : Record :=
  { mtga_id := 3, name := "N", rarity := "rare", color := "B",
    types := ["Sorcery"], ever_drawn_win_rate := none }

def recZeroWr : Record :=
  { mtga_id := 4, name := "Z", rarity := "rare", color := "R",
    types := ["Sorcery"], ever_drawn_win_rate := some 0 }

def recScore30 : Record :=
  { mtga_id := 5, name := "S30", rarity := "common", color := "G",
    types := ["Creature"], ever_drawn_win_rate := some 1,
    ever_drawn_score := some 30 }

def recScore70 : Record :=
  { mtga_id := 6, name := "S70", rarity := "common", color := "G",
    types := ["Creature"], ever_drawn_win_rate := some 1,
    ever_drawn_score := some 70 }

def recDualLand : Record :=
  { mtga_id := 7, name := "Dual", rarity := "common", color := "",
    types := ["Land Plains", "Mountain"], ever_drawn_win_rate := none }

def recArtifact : Record :=
  { mtga_id := 8, name := "Gizmo", rarity := "common", color := "",
    types := ["Artifact"], ever_drawn_win_rate := some 1 }

/-- C5: for every grade scale with grades in declaration order, strictly
descending thresholds and lowest threshold 0, `score_to_grade` is total on
[0,100] — the returned grade is an entry of the scale whose threshold is ≤ the
score, never the fall-through default — and monotone: a higher score maps to
an equal-or-better (smaller `Grade.toNat`) grade. -/
theorem c5_score_to_grade_total_monotone (scale : List (Grade × ℚ)) (s1 s2 : ℚ)
    (hasc : gradesStrictAsc scale = true)
    (_hdesc : thresholdsStrictDesc scale = true)
    (hzero : lastThresholdZero scale = true)
    (h0 : 0 ≤ s2) (h12 : s2 ≤ s1) (_h100 : s1 ≤ 100) :
    (∃ gt ∈ scale, score_to_grade scale s1 = gt.1 ∧ gt.2 ≤ s1) ∧
    (∃ gt ∈ scale, score_to_grade scale s2 = gt.1 ∧ gt.2 ≤ s2) ∧
    (score_to_grade scale s1).toNat ≤ (score_to_grade scale s2).toNat :=
  ⟨score_to_grade_total scale s1 hzero (le_trans h0 h12),
   score_to_grade_total scale s2 hzero h0,
   score_to_grade_monotone scale s1 s2 hasc h12⟩

/-- Witness for C5 at the concrete `GRADE_THRESHOLDS` scale with scores 80
and 30. -/
theorem c5_witness :
    (gradesStrictAsc GRADE_THRESHOLDS = true ∧
     thresholdsStrictDesc GRADE_THRESHOLDS = true ∧
     lastThresholdZero GRADE_THRESHOLDS = true ∧
     (0:ℚ) ≤ 30 ∧ (30:ℚ) ≤ 80 ∧ (80:ℚ) ≤ 100) ∧
    ((∃ gt ∈ GRADE_THRESHOLDS, score_to_grade GRADE_THRESHOLDS 80 = gt.1 ∧ gt.2 ≤ 80) ∧
     (∃ gt ∈ GRADE_THRESHOLDS, score_to_grade GRADE_THRESHOLDS 30 = gt.1 ∧ gt.2 ≤ 30) ∧
     (score_to_grade GRADE_THRESHOLDS 80).toNat ≤ (score_to_grade GRADE_THRESHOLDS 30).toNat) :=
  ⟨⟨by decide, by decide, by decide, by decide, by decide, by decide⟩,
   c5_score_to_grade_total_monotone GRADE_THRESHOLDS 80 30
     (by decide) (by decide) (by decide) (by decide) (by decide) (by decide)⟩

/-- C2 counterexample: with a single (fewer than 2) truthy sample,
`get_normal_distribution` does not fail with any error — it returns a model
whose standard deviation is numpy's NaN (`none`), exactly the silent
degenerate value the claim says is avoided. The repository defines no
`InsufficientSampleError` and the function contains no raise. -/
theorem c2_counterexample :
    (get_normal_distribution [recA] (fun r => r.ever_drawn_win_rate)).sqStd = none ∧
    (get_normal_distribution [recA] (fun r => r.ever_drawn_win_rate)).mean.isSome = true :=
  ⟨rfl, rfl⟩

/-- C2 amended: `get_normal_distribution` never raises; it returns NaN
(`none`) mean on an empty truthy sample and NaN standard deviation on fewer
than 2 truthy samples, and with 2 or more truthy samples it returns the
arithmetic mean and the n−1-denominator sample variance (the square of the
sample standard deviation). -/
theorem c2_fit_normal_amended (records : List Record) (key : Record → Option ℚ) :
    (truthy_values records key = [] →
      get_normal_distribution records key = { mean := none, sqStd := none }) ∧
    (truthy_values records key ≠ [] →
      (get_normal_distribution records key).mean =
        some (listMean (truthy_values records key))) ∧
    ((truthy_values records key).length < 2 →
      (get_normal_distribution records key).sqStd = none) ∧
    (2 ≤ (truthy_values records key).length →
      (get_normal_distribution records key).sqStd =
        some (((truthy_values records key).map
            (fun x => (x - listMean (truthy_values records key)) ^ 2)).sum /
          ((((truthy_values records key).length - 1 : ℕ)) : ℚ))) := by
  refine ⟨fun h => ?_, fun h => ?_, fun h => ?_, fun h => ?_⟩
  · simp [get_normal_distribution, npMean, npVarDdof1, h]
  · simp [get_normal_distribution, npMean, h, listMean]
  · simp [get_normal_distribution, npVarDdof1, h]
  · rw [Nat.cast_sub (by omega : 1 ≤ (truthy_values records key).length)]
    simp [get_normal_distribution, npVarDdof1, Nat.not_lt.mpr h, listMean]

/-- Witness for C2 (amended) at the empty record list. -/
theorem c2_witness :
    get_normal_distribution [] (fun r => r.ever_drawn_win_rate)
      = { mean := none, sqStd := none } :=
  (c2_fit_normal_amended [] (fun r => r.ever_drawn_win_rate)).1 rfl

/-- C3 counterexample: the enrichment loop mutates the provider records in
place (the dict values alias the fetched list), so after the call the input
records are changed — here both get an `ever_drawn_score` value. -/
theorem c3_counterexample :
    (get_graded_rankings [recA, recB]).1 ≠ [recA, recB] := by decide

/-- C3 amended: the enrichment's only side effect on the provider records is
the in-place update of `ever_drawn_score`, `ever_drawn_grade` and (for
colorless lands) `color`; every other field of every record — identifier,
name, rarity, types, raw win rate — is unchanged, and the returned mapping is
built from (aliases) the post-mutation records. -/
theorem c3_enrich_frame_amended (records : List Record) :
    ((get_graded_rankings records).1).map frameFields = records.map frameFields ∧
    (get_graded_rankings records).2 =
      ((get_graded_rankings records).1).foldl (fun m r => dictSet m r.mtga_id r) [] := by
  constructor
  · simp only [get_graded_rankings, List.map_map]
    exact List.map_congr_left (fun r _ => frameFields_enrich _ r)
  · rfl

/-- C4 counterexample: a record with empty color and type entries
["Land Plains", "Mountain"] mentions the basic-land words Plains and Mountain
across different type entries; the claim requires the union {W,R}, but the
code overwrites the color on every type entry, so only the last entry's
Mountain survives and the final color is "R" (no W). -/
theorem c4_counterexample :
    ((get_graded_rankings [recDualLand]).1).map (fun r => r.color) = ["R"] := by decide

/-- C4 amended: for a record with empty (falsy) color whose type list contains
"Land" as a substring of some entry, enrichment sets the color to
`land_string_to_colors` of the LAST type entry alone (each loop iteration
overwrites the previous assignment); the union of basic-land words is taken
only within that single entry. -/
theorem c4_backfill_amended (nd : NormalDistribution) (r : Record)
    (init : List String) (t : String)
    (hcolor : r.color = "") (htypes : r.types = init ++ [t])
    (hland : has_card_type r "Land" = true) :
    (enrichRecord nd r).color = land_string_to_colors t := by
  have hfold : ∀ (l : List String) (c0 : String),
      (l ++ [t]).foldl (fun _ card_type => land_string_to_colors card_type) c0
        = land_string_to_colors t := by
    intro l
    induction l with
    | nil => intro c0; rfl
    | cons a as ih => intro c0; exact ih _
  unfold enrichRecord
  rw [applyScore_color]
  unfold backfillColor
  rw [if_pos ⟨hcolor, hland⟩]
  show (resetScores r).types.foldl _ (resetScores r).color = _
  have : (resetScores r).types = init ++ [t] := htypes
  rw [this, hfold]

/-- Witness for C4 (amended) at the concrete two-type land record. -/
theorem c4_witness :
    (enrichRecord { mean := none, sqStd := none } recDualLand).color
      = land_string_to_colors "Mountain" :=
  c4_backfill_amended { mean := none, sqStd := none } recDualLand
    ["Land Plains"] "Mountain" rfl rfl (by decide)

def recScoreZero : Record :=
  { mtga_id := 9, name := "SZ", rarity := "common", color := "W",
    types := ["Enchantment"], ever_drawn_win_rate := some 1,
    ever_drawn_score := some 0 }

/-- C8 counterexample: with zero truthy score values (a None score and a 0.0
score), `get_top_scores` fails with the built-in IndexError from
`top_scores[-1]` on the empty slice — not with a distinct `EmptySampleError`,
a kind of error the repository never defines. -/
theorem c8_counterexample :
    get_top_scores [recNoScore, recScoreZero] (fun r => r.ever_drawn_score) 3
      = .error PyErr.indexError := rfl

/-- C8 amended: whenever the rankings hold zero truthy values for the score
key, `get_top_scores` fails, for every n, with the uncaught built-in
IndexError raised by `top_scores[-1]` on the empty list (not with a distinct
`EmptySampleError`, which the code does not define, and not with a silent NaN
result). -/
theorem c8_top_scores_amended (rankings : List Record) (key : Record → Option ℚ)
    (n : Nat) (h : truthy_values rankings key = []) :
    get_top_scores rankings key n = .error PyErr.indexError := by
  simp [get_top_scores, h, sortDesc]

/-- Witness for C8 (amended) at a single scoreless record and n = 5. -/
theorem c8_witness :
    get_top_scores [recNoScore] (fun r => r.ever_drawn_score) 5
      = .error PyErr.indexError :=
  c8_top_scores_amended [recNoScore] (fun r => r.ever_drawn_score) 5 rfl

/-- C9: when n exceeds the number of available truthy scores, the top-n slice
silently truncates to the available values: `get_top_scores` returns exactly
the same (mean, best, worst) triple as with n equal to the available count —
no padding, no failure. -/
theorem c9_top_scores_truncation (rankings : List Record)
    (key : Record → Option ℚ) (n : Nat)
    (_h1 : truthy_values rankings key ≠ [])
    (h2 : (truthy_values rankings key).length < n) :
    get_top_scores rankings key n
      = get_top_scores rankings key (truthy_values rankings key).length := by
  have hlen : (sortDesc (truthy_values rankings key)).length
      = (truthy_values rankings key).length := sortDesc_length _
  have ht1 : (sortDesc (truthy_values rankings key)).take n
      = sortDesc (truthy_values rankings key) :=
    take_eq_self_of_le _ _ (hlen ▸ Nat.le_of_lt h2)
  have ht2 : (sortDesc (truthy_values rankings key)).take
      (truthy_values rankings key).length
      = sortDesc (truthy_values rankings key) :=
    take_eq_self_of_le _ _ (Nat.le_of_eq hlen)
  simp only [get_top_scores, ht1, ht2]

/-- Witness for C9 at two scored records with n = 5 > 2 available values. -/
theorem c9_witness :
    (truthy_values [recScore30, recScore70] (fun r => r.ever_drawn_score) ≠ [] ∧
     (truthy_values [recScore30, recScore70] (fun r => r.ever_drawn_score)).length < 5) ∧
    get_top_scores [recScore30, recScore70] (fun r => r.ever_drawn_score) 5
      = get_top_scores [recScore30, recScore70] (fun r => r.ever_drawn_score)
          (truthy_values [recScore30, recScore70] (fun r => r.ever_drawn_score)).length :=
  ⟨⟨by decide, by decide⟩,
   c9_top_scores_truncation [recScore30, recScore70] (fun r => r.ever_drawn_score) 5
     (by decide) (by decide)⟩

/-- C10: a metric equal to 0.0 is treated exactly like an absent (None)
value everywhere, because every guard is Python truthiness: the normal-model
fit is unchanged when a 0.0 win rate is replaced by None, a record with 0.0
win rate keeps null score and grade after enrichment, and `get_top_scores` is
unchanged when a 0.0 score is replaced by None. -/
theorem c10_zero_is_missing (pre suf : List Record) (r : Record)
    (nd : NormalDistribution) (n : Nat)
    (h : r.ever_drawn_win_rate = some 0) :
    get_normal_distribution (pre ++ r :: suf) (fun x => x.ever_drawn_win_rate)
      = get_normal_distribution
          (pre ++ ({ r with ever_drawn_win_rate := none } : Record) :: suf)
          (fun x => x.ever_drawn_win_rate) ∧
    (enrichRecord nd r).ever_drawn_score = none ∧
    (enrichRecord nd r).ever_drawn_grade = none ∧
    get_top_scores (pre ++ ({ r with ever_drawn_score := some 0 } : Record) :: suf)
        (fun x => x.ever_drawn_score) n
      = get_top_scores (pre ++ ({ r with ever_drawn_score := none } : Record) :: suf)
          (fun x => x.ever_drawn_score) n := by
  have tveq : ∀ (key : Record → Option ℚ) (a b : Record),
      pyTruthy (key a) = false → pyTruthy (key b) = false →
      truthy_values (pre ++ a :: suf) key = truthy_values (pre ++ b :: suf) key := by
    intro key a b ha hb
    rw [truthy_values_append, truthy_values_append,
        truthy_values_cons_falsy _ _ _ ha, truthy_values_cons_falsy _ _ _ hb]
  have hwr : (backfillColor (resetScores r)).ever_drawn_win_rate = some 0 := by
    rw [backfillColor_wr, resetScores_wr, h]
  have hguard : pyTruthy (backfillColor (resetScores r)).ever_drawn_win_rate = false := by
    rw [hwr]; decide
  refine ⟨?_, ?_, ?_, ?_⟩
  · have h1 := tveq (fun x => x.ever_drawn_win_rate) r
      ({ r with ever_drawn_win_rate := none } : Record)
      (by show pyTruthy r.ever_drawn_win_rate = false; rw [h]; decide) rfl
    simp only [get_normal_distribution, h1]
  · show (applyScore nd (backfillColor (resetScores r))).ever_drawn_score = none
    simp [applyScore, hguard, backfillColor_score, resetScores_score]
  · show (applyScore nd (backfillColor (resetScores r))).ever_drawn_grade = none
    simp [applyScore, hguard, backfillColor_grade, resetScores_grade]
  · have h4 := tveq (fun x => x.ever_drawn_score)
      ({ r with ever_drawn_score := some 0 } : Record)
      ({ r with ever_drawn_score := none } : Record)
      (by show pyTruthy (some 0) = false; decide) rfl
    simp only [get_top_scores, h4]

/-- Witness for C10 at a concrete record with win rate exactly 0. -/
theorem c10_witness :
    (enrichRecord { mean := none, sqStd := none } recZeroWr).ever_drawn_score = none ∧
    (enrichRecord { mean := none, sqStd := none } recZeroWr).ever_drawn_grade = none :=
  ⟨(c10_zero_is_missing [] [recB] recZeroWr { mean := none, sqStd := none } 3 rfl).2.1,
   (c10_zero_is_missing [] [recB] recZeroWr { mean := none, sqStd := none } 3 rfl).2.2.1⟩

/-- C1 counterexample: a colorless (empty color identity) non-land card is
placed in the bucket of the pair WU, because `are_card_colors_in_pair` is
vacuously true on an empty color string — the claim says such a card belongs
to no pair bucket. -/
theorem c1_counterexample :
    bucketFor [(8, recArtifact)] [8] false "WU" = .ok [recArtifact] := rfl

/-- C1 amended: with include_lands false, the bucket of a pair consists of
exactly the pool's resolved non-land records whose color-identity set is
contained in the pair — including colorless (empty color) non-land cards,
which therefore appear in every pair bucket; containment alone, without any
non-emptiness condition, characterizes `are_card_colors_in_pair`. -/
theorem c1_membership_amended (byId : List (Nat × Record)) (pool : List Nat)
    (color_pair : String) (rs : List Record)
    (_hpair : (COLOR_PAIRS.map Prod.fst).contains color_pair = true)
    (hres : pool.mapM (lookupRec byId) = some rs) :
    bucketFor byId pool false color_pair =
      .ok (rs.filter (fun r =>
        !(has_card_type r "Land") && are_card_colors_in_pair r.color color_pair)) ∧
    ∀ r : Record, are_card_colors_in_pair r.color color_pair = true ↔
      ∀ c ∈ r.color.data, c ∈ color_pair.data := by
  constructor
  · induction pool generalizing rs with
    | nil =>
      simp only [List.mapM_nil, pure, Option.some_inj] at hres
      subst hres
      rfl
    | cons arena_id rest ih =>
      simp only [List.mapM_cons] at hres
      cases hr : lookupRec byId arena_id with
      | none => rw [hr] at hres; simp at hres
      | some ranking =>
        rw [hr] at hres
        simp only [Option.bind_eq_bind, Option.some_bind] at hres
        cases hrs' : rest.mapM (lookupRec byId) with
        | none => rw [hrs'] at hres; simp at hres
        | some rs' =>
          rw [hrs'] at hres
          simp only [Option.some_bind, pure, Option.some_inj] at hres
          subst hres
          have ihr := ih rs' hrs'
          by_cases hland : has_card_type ranking "Land" = true
          · simp [bucketFor, hr, hland, List.filter_cons, ihr]
          · simp only [Bool.not_eq_true] at hland
            by_cases hfit : are_card_colors_in_pair ranking.color color_pair = true
            · simp [bucketFor, hr, hland, hfit, List.filter_cons, ihr, Except.map]
            · simp only [Bool.not_eq_true] at hfit
              simp [bucketFor, hr, hland, hfit, List.filter_cons, ihr]
  · intro r
    simp [are_card_colors_in_pair, List.all_eq_true]

/-- Witness for C1 (amended) at a one-card colorless pool and the pair WU. -/
theorem c1_witness :
    ((COLOR_PAIRS.map Prod.fst).contains "WU" = true ∧
     [8].mapM (lookupRec [(8, recArtifact)]) = some [recArtifact]) ∧
    (bucketFor [(8, recArtifact)] [8] false "WU" =
       .ok ([recArtifact].filter (fun r =>
         !(has_card_type r "Land") && are_card_colors_in_pair r.color "WU")) ∧
     ∀ r : Record, are_card_colors_in_pair r.color "WU" = true ↔
       ∀ c ∈ r.color.data, c ∈ "WU".data) :=
  ⟨⟨by decide, by rfl⟩,
   c1_membership_amended [(8, recArtifact)] [8] "WU" [recArtifact] (by decide) (by rfl)⟩

/-- JSON values as decoded by `json.loads`. -/
inductive Json where
  | null
  | bool (b : Bool)
  | num (q : ℚ)
  | str (s : String)
  | arr (elems : List Json)
  | obj (members : List (String × Json))

/-- Whitespace skipping of the JSON grammar. -/
def skipWs (cs : List Char) : List Char := cs.dropWhile isWs

/-- Body of a JSON string after the opening quote; handles the simple escape
sequences (\x22 \x5c / n t r). Unicode escapes are outside the subset the
log payloads of the claims exercise. -/
def parseStringBody : List Char → List Char → Option (String × List Char)
  | [], _ => none
  | c :: rest, acc =>
    if c = '"' then some (String.mk acc.reverse, rest)
    else if c = '\\' then
      match rest with
      | [] => none
      | e :: rest2 =>
        if e = '"' then parseStringBody rest2 ('"' :: acc)
        else if e = '\\' then parseStringBody rest2 ('\\' :: acc)
        else if e = '/' then parseStringBody rest2 ('/' :: acc)
        else if e = 'n' then parseStringBody rest2 ('\n' :: acc)
        else if e = 't' then parseStringBody rest2 ('\t' :: acc)
        else if e = 'r' then parseStringBody rest2 ('\r' :: acc)
        else none
    else parseStringBody rest (c :: acc)

/-- Digits to a natural number. -/
def digitsToNat (l : List Char) : Nat :=
  l.foldl (fun n c => 10 * n + (c.toNat - '0'.toNat)) 0

/-- JSON number (optional sign, integer part, optional fraction; exponents
are outside the exercised subset). -/
def parseNum (cs : List Char) : Option (ℚ × List Char) :=
  let sign := match cs with
    | '-' :: r => (true, r)
    | _ => (false, cs)
  let neg := sign.1
  let cs1 := sign.2
  let intPart := cs1.takeWhile Char.isDigit
  if intPart.isEmpty then none
  else
    let cs2 := cs1.drop intPart.length
    match cs2 with
    | '.' :: cs3 =>
      let frac := cs3.takeWhile Char.isDigit
      if frac.isEmpty then none
      else
        let q : ℚ := (digitsToNat intPart : ℚ) +
          (digitsToNat frac : ℚ) / ((10 : ℚ) ^ frac.length)
        some (if neg then -q else q, cs3.drop frac.length)
    | _ =>
      some (if neg then -(digitsToNat intPart : ℚ) else (digitsToNat intPart : ℚ), cs2)

mutual

/-- Recursive-descent JSON value parser, fuel-indexed. -/
def parseVal : Nat → List Char → Option (Json × List Char)
  | 0, _ => none
  | fuel + 1, cs =>
    match skipWs cs with
    | 'n' :: 'u' :: 'l' :: 'l' :: r => some (.null, r)
    | 't' :: 'r' :: 'u' :: 'e' :: r => some (.bool true, r)
    | 'f' :: 'a' :: 'l' :: 's' :: 'e' :: r => some (.bool false, r)
    | '"' :: r => (parseStringBody r []).map (fun p => (.str p.1, p.2))
    | '[' :: r =>
      (match skipWs r with
       | ']' :: r2 => some (.arr [], r2)
       | r2 => (parseItems fuel r2).map (fun p => (.arr p.1, p.2)))
    | '\x7b' :: r =>
      (match skipWs r with
       | '\x7d' :: r2 => some (.obj [], r2)
       | r2 => (parseMembers fuel r2).map (fun p => (.obj p.1, p.2)))
    | cs2 => (parseNum cs2).map (fun p => (.num p.1, p.2))

/-- Comma-separated array elements up to the closing bracket. -/
def parseItems : Nat → List Char → Option (List Json × List Char)
  | 0, _ => none
  | fuel + 1, cs =>
    match parseVal fuel cs with
    | none => none
    | some (j, rest) =>
      match skipWs rest with
      | ',' :: r2 => (parseItems fuel r2).map (fun p => (j :: p.1, p.2))
      | ']' :: r2 => some ([j], r2)
      | _ => none

/-- Comma-separated object members up to the closing brace. -/
def parseMembers : Nat → List Char → Option (List (String × Json) × List Char)
  | 0, _ => none
  | fuel + 1, cs =>
    match skipWs cs with
    | '"' :: r =>
      (match parseStringBody r [] with
       | none => none
       | some (k, r2) =>
         match skipWs r2 with
         | ':' :: r3 =>
           (match parseVal fuel r3 with
            | none => none
            | some (v, r4) =>
              match skipWs r4 with
              | ',' :: r5 => (parseMembers fuel r5).map (fun p => ((k, v) :: p.1, p.2))
              | '\x7d' :: r5 => some ([(k, v)], r5)
              | _ => none)
         | _ => none)
    | _ => none

end

/-- Embeds `json.loads(s)`: parse one JSON value and require only trailing
whitespace; `none` models `json.decoder.JSONDecodeError`. -/
def json_loads (s : String) : Option Json :=
  match parseVal (2 * s.length + 2) s.data with
  | some (j, rest) => if (skipWs rest).isEmpty then some j else none
  | none => none

/-- Word characters of the regex class \w (ASCII range, which covers the
event names the log produces). -/
def isWordChar (c : Char) : Bool := c.isAlphanum || c = '_'

/-- Characters of the correlation-id class [a-f0-9-] in the pattern
`<== (\w+)\(([a-f0-9-]+)\)` of src/mtga_helper/mtga_log.py line 103. -/
def isIdChar (c : Char) : Bool := ('a' ≤ c && c ≤ 'f') || c.isDigit || c = '-'

/-- Remove `p` from the front of `l`, or fail. -/
def stripPref? : List Char → List Char → Option (List Char)
  | [], l => some l
  | _ :: _, [] => none
  | a :: ps, b :: ls => if a = b then stripPref? ps ls else none

/-- Match the pattern `<== (\w+)\(([a-f0-9-]+)\)` at the head of `cs`,
returning (event name, correlation id). Both character runs are greedy; no
backtracking arises because '(' and ')' lie outside both classes. -/
def matchArrowAt (cs : List Char) : Option (String × String) :=
  match stripPref? "<== ".data cs with
  | none => none
  | some r1 =>
    let ev := r1.takeWhile isWordChar
    if ev.isEmpty then none
    else
      match r1.dropWhile isWordChar with
      | '(' :: r3 =>
        let ident := r3.takeWhile isIdChar
        if ident.isEmpty then none
        else
          match r3.dropWhile isIdChar with
          | ')' :: _ => some (String.mk ev, String.mk ident)
          | _ => none
      | _ => none

/-- Performs `re.search` for the arrow pattern: first position where it matches. -/
def searchArrow : List Char → Option (String × String)
  | [] => none
  | c :: rest =>
    match matchArrowAt (c :: rest) with
    | some r => some r
    | none => searchArrow rest

/-- Embeds `re.search(r"<== (\w+)\(([a-f0-9-]+)\)", line)` of
src/mtga_helper/mtga_log.py. -/
def reSearchArrow (line : String) : Option (String × String) :=
  searchArrow line.data

/-- Match `\[UnityCrossThreadLogger\]==> (\w+) (.*)` at the head of `cs`:
event name, then everything after the separating space. -/
def matchStartAt (cs : List Char) : Option (String × String) :=
  match stripPref? "[UnityCrossThreadLogger]==> ".data cs with
  | none => none
  | some r1 =>
    let ev := r1.takeWhile isWordChar
    if ev.isEmpty then none
    else
      match r1.dropWhile isWordChar with
      | ' ' :: r3 => some (String.mk ev, String.mk r3)
      | _ => none

/-- Performs `re.search` for the start-line pattern. -/
def searchStart : List Char → Option (String × String)
  | [] => none
  | c :: rest =>
    match matchStartAt (c :: rest) with
    | some r => some r
    | none => searchStart rest

/-- Embeds `re.search(r"\[UnityCrossThreadLogger\]==> (\w+) (.*)", line)` of
src/mtga_helper/mtga_log.py. -/
def reSearchStart (line : String) : Option (String × String) :=
  searchStart line.data

/-- Python `s.split(sep)` for a one-character separator (empty parts kept). -/
def splitChar (sep : Char) : List Char → List (List Char)
  | [] => [[]]
  | c :: rest =>
    match splitChar sep rest with
    | [] => [[]]
    | h :: t => if c = sep then [] :: h :: t else (c :: h) :: t

/-- Python `s.strip()`. -/
def trimWs (l : List Char) : List Char :=
  ((l.dropWhile isWs).reverse.dropWhile isWs).reverse

/-- Embeds `line.split(sep)[i].strip()`; `none` models the IndexError when the index
does not exist. -/
def pySplitIdx (line : String) (sep : Char) (i : Nat) : Option String :=
  ((splitChar sep line.data).get? i).map (fun l => String.mk (trimWs l))

/-- A payload handed to an end callback: decoded JSON, or — when JSON parsing
of the payload line fails — the raw line string (the LogBusinessEvents
fallback commented in src/mtga_helper/mtga_log.py lines 82-84). -/
inductive Payload where
  | json (j : Json)
  | raw (s : String)

/-- Observable actions of one iteration of the `follow_player_log` loop of
src/mtga_helper/mtga_log.py: callback invocations and logger output. -/
inductive Effect where
  | endDispatch (event : String) (payload : Payload)
  | unhandledEnd (event : String)
  | versionInfo (v : String)
  | detailedLogs (status : String)
  | startDispatch (event : String) (payload : Json)
  | unhandledStart (event : String)

/-- One iteration of the `for line in follow(...)` loop of
`follow_player_log` (src/mtga_helper/mtga_log.py, lines 73-119), as a
function of the state variable `next_line_event` ("" = Idle) and the current
line. Callbacks are represented by the lists of registered event names;
invocations become `Effect`s. Returns the new state and the effects, or the
uncaught exception. -/
def follow_player_log_step (start_callbacks end_callbacks : List String)
    (next_line_event : String) (line : String) :
    Except PyErr (String × List Effect) :=
  if next_line_event ≠ "" then
    if end_callbacks.contains next_line_event then
      match json_loads line with
      | some payload => .ok ("", [.endDispatch next_line_event (.json payload)])
      | none => .ok ("", [.endDispatch next_line_event (.raw line)])
    else .ok ("", [.unhandledEnd next_line_event])
  else if strIn "Version:" line && line.data.count '/' == 2 then
    match pySplitIdx line '/' 1 with
    | some v => .ok ("", [.versionInfo v])
    | none => .error .indexError
  else if strIn "DETAILED LOGS" line then
    match pySplitIdx line ':' 1 with
    | some status => .ok ("", [.detailedLogs status])
    | none => .error .indexError
  else if "<==".data.isPrefixOf line.data then
    match reSearchArrow line with
    | some ev_id => .ok (ev_id.1, [])
    | none => .ok ("", [])
  else if "[UnityCrossThreadLogger]==>".data.isPrefixOf line.data then
    match reSearchStart line with
    | some ev_outer =>
      (match json_loads ev_outer.2 with
       | none => .error .jsonDecodeError
       | some outerJson =>
         match outerJson with
         | .obj members =>
           (match members.find? (fun m => m.1 = "request") with
            | some m =>
              (match m.2 with
               | .str inner =>
                 (match json_loads inner with
                  | none => .error .jsonDecodeError
                  | some innerJson =>
                    if start_callbacks.contains ev_outer.1 then
                      .ok ("", [.startDispatch ev_outer.1 innerJson])
                    else .ok ("", [.unhandledStart ev_outer.1]))
               | _ => .error .typeError)
            | none => .error .keyError)
         | _ => .error .typeError)
    | none => .ok ("", [])
  else .ok ("", [])

/-- Feed a list of lines through `follow_player_log_step`, accumulating
effects, stopping at the first uncaught exception. -/
def follow_player_log_run (start_callbacks end_callbacks : List String)
    (st : String) : List String → Except PyErr (String × List Effect)
  | [] => .ok (st, [])
  | line :: rest =>
    match follow_player_log_step start_callbacks end_callbacks st line with
    | .error e => .error e
    | .ok st_effs =>
      match follow_player_log_run start_callbacks end_callbacks st_effs.1 rest with
      | .error e => .error e
      | .ok p => .ok (p.1, st_effs.2 ++ p.2)

/-- C6 counterexample: in AwaitingPayload for a registered event, a line that
fails JSON parsing IS dispatched to the end handler (with the raw line string
as payload) and produces no diagnostic — the claim says no handler dispatch
occurs and a diagnostic is produced. -/
theorem c6_counterexample :
    follow_player_log_step [] ["EventGetCoursesV2"] "EventGetCoursesV2" "???"
      = .ok ("", [.endDispatch "EventGetCoursesV2" (.raw "???")]) := rfl

/-- C6 amended: in AwaitingPayload, a payload line that fails JSON parsing
never raises and always returns the tailer to Idle (empty pending event), so
the next line is processed normally; but instead of skipping with a
diagnostic, the registered end handler is invoked with the raw line string as
payload (the LogBusinessEvents fallback); the diagnostic-without-dispatch
behavior occurs only when no handler is registered for the pending event. -/
theorem c6_payload_failure_amended (start_callbacks end_callbacks : List String)
    (ev line : String) (hev : ev ≠ "") (hfail : json_loads line = none) :
    follow_player_log_step start_callbacks end_callbacks ev line
      = .ok ("", if end_callbacks.contains ev then
                   [.endDispatch ev (.raw line)]
                 else [.unhandledEnd ev]) := by
  simp only [follow_player_log_step, if_pos hev, hfail]
  split <;> rfl

/-- Witness for C6 (amended) with a registered handler and an unparseable
payload line. -/
theorem c6_witness :
    follow_player_log_step [] ["EventGetCoursesV2"] "EventGetCoursesV2" "not json"
      = .ok ("", if (["EventGetCoursesV2"] : List String).contains "EventGetCoursesV2" then
                   [.endDispatch "EventGetCoursesV2" (.raw "not json")]
                 else [.unhandledEnd "EventGetCoursesV2"]) :=
  c6_payload_failure_amended [] ["EventGetCoursesV2"] "EventGetCoursesV2" "not json"
    (by decide) rfl

/-- C7 counterexample: the spec's own scenario line
`<== EventGetCoursesV2(id-123)` does NOT trigger the response-arriving
transition, because the correlation id `id-123` contains the letter i, which
is outside the regex class [a-f0-9-]; the regex fails, the state stays Idle,
and the following valid JSON line is ignored — zero dispatches instead of
exactly one. -/
theorem c7_counterexample :
    follow_player_log_run [] ["EventGetCoursesV2"] ""
        ["<== EventGetCoursesV2(id-123)", "\x7b\"Courses\": []\x7d"]
      = .ok ("", []) := rfl

theorem stripPrefQ_append (p t : List Char) : stripPref? p (p ++ t) = some t := by
  induction p with
  | nil => rfl
  | cons a ps ih => simp [stripPref?, ih]

theorem takeWhile_append_all {p : Char → Bool} {l1 : List Char}
    (h : ∀ c ∈ l1, p c = true) (l2 : List Char) :
    (l1 ++ l2).takeWhile p = l1 ++ l2.takeWhile p := by
  induction l1 with
  | nil => rfl
  | cons a t ih =>
    have ha : p a = true := h a (List.mem_cons_self a t)
    simp only [List.cons_append, List.takeWhile_cons, ha, if_true]
    rw [ih (fun c hc => h c (List.mem_cons_of_mem a hc))]

theorem dropWhile_append_all {p : Char → Bool} {l1 : List Char}
    (h : ∀ c ∈ l1, p c = true) (l2 : List Char) :
    (l1 ++ l2).dropWhile p = l2.dropWhile p := by
  induction l1 with
  | nil => rfl
  | cons a t ih =>
    have ha : p a = true := h a (List.mem_cons_self a t)
    simp only [List.cons_append, List.dropWhile_cons, ha, if_true]
    exact ih (fun c hc => h c (List.mem_cons_of_mem a hc))

theorem matchArrowAt_concrete (id : String) (rest : List Char)
    (hid : id.data ≠ []) (hchars : ∀ c ∈ id.data, isIdChar c = true) :
    matchArrowAt ("<== ".data ++
        ("EventGetCoursesV2".data ++ ('(' :: (id.data ++ (')' :: rest)))))
      = some ("EventGetCoursesV2", id) := by
  have hword : ∀ c ∈ ("EventGetCoursesV2" : String).data, isWordChar c = true := by decide
  have hpar : isWordChar '(' = false := by decide
  have hrpar : isIdChar ')' = false := by decide
  have hidE : id.data.isEmpty = false := by
    cases h : id.data with
    | nil => exact absurd h hid
    | cons a t => rfl
  have htake1 : ("EventGetCoursesV2".data ++
      ('(' :: (id.data ++ (')' :: rest)))).takeWhile isWordChar
      = "EventGetCoursesV2".data := by
    rw [takeWhile_append_all hword, List.takeWhile_cons, hpar]
    simp
  have hdrop1 : ("EventGetCoursesV2".data ++
      ('(' :: (id.data ++ (')' :: rest)))).dropWhile isWordChar
      = '(' :: (id.data ++ (')' :: rest)) := by
    rw [dropWhile_append_all hword, List.dropWhile_cons, hpar]
    simp
  have htake2 : (id.data ++ (')' :: rest)).takeWhile isIdChar = id.data := by
    rw [takeWhile_append_all hchars, List.takeWhile_cons, hrpar]
    simp
  have hdrop2 : (id.data ++ (')' :: rest)).dropWhile isIdChar = ')' :: rest := by
    rw [dropWhile_append_all hchars, List.dropWhile_cons, hrpar]
    simp
  unfold matchArrowAt
  rw [stripPrefQ_append]
  dsimp only
  rw [htake1, hdrop1,
      show ("EventGetCoursesV2" : String).data.isEmpty = false from by decide]
  simp [htake2, hdrop2, hidE]

theorem step_marker (start_callbacks end_callbacks : List String) (id : String)
    (hid : id.data ≠ []) (hchars : ∀ c ∈ id.data, isIdChar c = true) :
    follow_player_log_step start_callbacks end_callbacks ""
        ("<== EventGetCoursesV2(" ++ id ++ ")")
      = .ok ("EventGetCoursesV2", []) := by
  have hdata : ("<== EventGetCoursesV2(" ++ id ++ ")").data
      = "<== EventGetCoursesV2(".data ++ (id.data ++ [')']) := by
    rw [String.data_append, String.data_append,
        show (")" : String).data = [')'] from rfl, List.append_assoc]
  have hshape : ("<== EventGetCoursesV2(" ++ id ++ ")").data
      = "<== ".data ++ ("EventGetCoursesV2".data ++ ('(' :: (id.data ++ (')' :: [])))) := by
    rw [hdata,
        show ("<== EventGetCoursesV2(" : String).data
          = "<== ".data ++ ("EventGetCoursesV2".data ++ ['(']) from by decide]
    simp [List.append_assoc]
  have hslash : ("<== EventGetCoursesV2(" ++ id ++ ")").data.count '/' = 0 := by
    rw [hdata, List.count_append, List.count_append]
    have h1 : "<== EventGetCoursesV2(".data.count '/' = 0 := by decide
    have h2 : id.data.count '/' = 0 := by
      rw [List.count_eq_zero]
      intro hmem
      have := hchars '/' hmem
      simp [isIdChar] at this
    have h3 : ([')'] : List Char).count '/' = 0 := by decide
    omega
  have hver : (strIn "Version:" ("<== EventGetCoursesV2(" ++ id ++ ")")
      && (("<== EventGetCoursesV2(" ++ id ++ ")").data.count '/' == 2)) = false := by
    rw [hslash]
    simp
  have hdet : strIn "DETAILED LOGS" ("<== EventGetCoursesV2(" ++ id ++ ")") = false := by
    by_contra hcon
    rw [Bool.not_eq_false] at hcon
    have hmem := subList_subset hcon 'D' (by decide)
    rw [hdata] at hmem
    rcases List.mem_append.mp hmem with hm | hm
    · exact absurd hm (by decide)
    · rcases List.mem_append.mp hm with hm2 | hm2
      · have := hchars 'D' hm2
        simp [isIdChar] at this
      · exact absurd hm2 (by decide)
  have hpre : "<==".data.isPrefixOf (("<== EventGetCoursesV2(" ++ id ++ ")").data) = true := by
    rw [hdata,
        show ("<== EventGetCoursesV2(" : String).data
          = "<==".data ++ " EventGetCoursesV2(".data from by decide,
        List.append_assoc]
    exact isPrefixOf_append _ _
  have hcons : ∀ X : List Char, ("<== " : String).data ++ X = '<' :: (("== " : String).data ++ X) := by
    intro X
    rw [show ("<== " : String).data = '<' :: ("== " : String).data from by decide,
        List.cons_append]
  have hsearch : reSearchArrow ("<== EventGetCoursesV2(" ++ id ++ ")")
      = some ("EventGetCoursesV2", id) := by
    unfold reSearchArrow
    rw [hshape, hcons, searchArrow, ← hcons, matchArrowAt_concrete id [] hid hchars]
  unfold follow_player_log_step
  rw [if_neg (by simp)]
  rw [hver, hdet, hpre]
  simp [hsearch]

/-- C7 amended: the happy-path demux holds once the correlation id fits the
regex class: for every nonempty correlation id made of characters from
[a-f0-9-], feeding Idle the line `<== EventGetCoursesV2(<id>)` followed by
any line whose JSON parse succeeds yields exactly one end-handler dispatch
for EventGetCoursesV2 carrying the decoded payload, and the state variable
returns to Idle (empty pending event name). With an id outside that class —
such as the spec's own `id-123` — the marker line is ignored and nothing is
dispatched. -/
theorem c7_happy_path_amended (start_callbacks end_callbacks : List String)
    (id payloadLine : String) (j : Json)
    (hid : id.data ≠ []) (hchars : ∀ c ∈ id.data, isIdChar c = true)
    (hreg : end_callbacks.contains "EventGetCoursesV2" = true)
    (hjson : json_loads payloadLine = some j) :
    follow_player_log_run start_callbacks end_callbacks ""
        ["<== EventGetCoursesV2(" ++ id ++ ")", payloadLine]
      = .ok ("", [.endDispatch "EventGetCoursesV2" (.json j)]) := by
  have h1 := step_marker start_callbacks end_callbacks id hid hchars
  have h2 : follow_player_log_step start_callbacks end_callbacks
      "EventGetCoursesV2" payloadLine
      = .ok ("", [.endDispatch "EventGetCoursesV2" (.json j)]) := by
    have hmem : "EventGetCoursesV2" ∈ end_callbacks := by simpa using hreg
    simp [follow_player_log_step, hmem, hjson]
  simp [follow_player_log_run, h1, h2]

/-- Witness for C7 (amended) with the in-class id ab-123 and the payload of
the spec's scenario. -/
theorem c7_witness :
    (("ab-123" : String).data ≠ [] ∧
     (∀ c ∈ ("ab-123" : String).data, isIdChar c = true) ∧
     (["EventGetCoursesV2"] : List String).contains "EventGetCoursesV2" = true ∧
     json_loads "\x7b\"Courses\": []\x7d" = some (Json.obj [("Courses", Json.arr [])])) ∧
    follow_player_log_run [] ["EventGetCoursesV2"] ""
        ["<== EventGetCoursesV2(" ++ "ab-123" ++ ")", "\x7b\"Courses\": []\x7d"]
      = .ok ("", [.endDispatch "EventGetCoursesV2"
          (.json (Json.obj [("Courses", Json.arr [])]))]) :=
  ⟨⟨by decide, by decide, by decide, rfl⟩,
   c7_happy_path_amended [] ["EventGetCoursesV2"] "ab-123" "\x7b\"Courses\": []\x7d"
     (Json.obj [("Courses", Json.arr [])]) (by decide) (by decide) (by decide) rfl⟩
